import Mathlib

/-!
Verification development for the GenLock workstation-locking program
(`genlock.py`, `genlock_app.py`).

The Python source is shallowly embedded: the per-frame gesture-stabilizer
state machine, the voice trigger-phrase matcher, the debounced lock
controller, the singleton guard and the control channel become pure Lean
functions over explicit state.  Wall-clock timestamps (`time.time()`) are
modelled as rationals supplied with each input.
-/

namespace GenLock

/-! ### Configuration constants (genlock.py lines 16-20) -/

/-- `LOCK_HOLD_SECONDS = 0.9`: how long the gesture must be held. -/
def LOCK_HOLD_SECONDS : ℚ := 9/10

/-- `GESTURE_FRAME_WINDOW = 10`: smoothing window size in frames. -/
def GESTURE_FRAME_WINDOW : ℕ := 10

/-- `VOICE_KEY_PHRASES`: trigger phrases, in source order. -/
def VOICE_KEY_PHRASES : List String :=
  ["lock laptop", "lock my laptop", "lock computer", "secure", "lock it"]

/-- `CONFIRM_COUNTDOWN = 3`: seconds of countdown before locking. -/
def CONFIRM_COUNTDOWN : ℕ := 3

/-- `DEBOUNCE_SECONDS = 3`: minimum seconds between locks. -/
def DEBOUNCE_SECONDS : ℚ := 3

/-! ### Gesture stabilizer (genlock.py lines 168-220)

The main loop keeps `frame_history` (a Python list of booleans),
`gesture_start_time` (a float or `None`) and `last_gesture_state`
(a boolean).  Each frame it appends the detected signal, pops the oldest
entry when the list exceeds `GESTURE_FRAME_WINDOW`, computes the vote
count and the stability verdict, and runs the hold-time state machine,
possibly emitting one `("gesture", "fist")` event. -/

structure GestureState where
  frame_history : List Bool
  gesture_start_time : Option ℚ
  last_gesture_state : Bool
deriving Repr, DecidableEq

/-- State at program start (lines 168-170). -/
def initGestureState : GestureState := ⟨[], none, false⟩

/-- Lines 199-201: `frame_history.append(gesture_detected)` followed by
`frame_history.pop(0)` when the length exceeds the window. -/
def pushFrame (fh : List Bool) (g : Bool) : List Bool :=
  if GESTURE_FRAME_WINDOW < (fh ++ [g]).length then (fh ++ [g]).drop 1
  else fh ++ [g]

/-- Line 203: `votes = sum(frame_history)` — the number of `True` entries. -/
def votesOf (fh : List Bool) : ℕ := fh.count true

/-- Line 204: `stable = votes >= (GESTURE_FRAME_WINDOW * 0.7)`.
The float product `10 * 0.7` evaluates to exactly `7.0` in IEEE double
precision (the exact product `7 - 2⁻⁵¹` is a round-to-even tie resolved
to `7.0`), and comparing a Python `int` with a float is exact, so the
comparison is faithfully `votes ≥ (10 : ℚ) * (7/10)`. -/
def stableOf (fh : List Bool) : Bool :=
  decide ((GESTURE_FRAME_WINDOW : ℚ) * (7/10) ≤ (votesOf fh : ℚ))

/-- Lines 199-220: one iteration of the smoothing + hold-time state
machine, at wall-clock time `t`, with frame signal `g`.  Returns the new
state and whether a `("gesture", "fist")` event was put on the queue.

The Python `elif` chain is `stable and not last` / `stable and last` /
`not stable`, rendered here as nested conditionals with the same
partition.  On emission (lines 214-217) the history is cleared and
`last_gesture_state` is set to `False`, while `gesture_start_time` is
left untouched (the source does not reset it there). -/
def observe (s : GestureState) (g : Bool) (t : ℚ) : GestureState × Bool :=
  if stableOf (pushFrame s.frame_history g) then
    if s.last_gesture_state then
      if LOCK_HOLD_SECONDS ≤ t - (s.gesture_start_time.getD 0) then
        (⟨[], s.gesture_start_time, false⟩, true)
      else
        (⟨pushFrame s.frame_history g, s.gesture_start_time, true⟩, false)
    else
      (⟨pushFrame s.frame_history g, some t, true⟩, false)
  else
    (⟨pushFrame s.frame_history g, none, false⟩, false)

/-- One fold step over a `(signal, timestamp)` frame. -/
def gestureStep (s : GestureState) (f : Bool × ℚ) : GestureState :=
  (observe s f.1 f.2).1

/-- State after processing a whole list of frames from state `s`. -/
def stateAfter (s : GestureState) (frames : List (Bool × ℚ)) : GestureState :=
  frames.foldl gestureStep s

/-- Signal of the `i`-th frame (out-of-range defaults are never used
under the theorems' bounds hypotheses). -/
def sigAt (frames : List (Bool × ℚ)) (i : ℕ) : Bool :=
  (frames.getD i (false, 0)).1

/-- Timestamp of the `i`-th frame. -/
def timeAt (frames : List (Bool × ℚ)) (i : ℕ) : ℚ :=
  (frames.getD i (false, 0)).2

/-- State just before processing frame `i`, starting from `s₀`. -/
def stateFromAt (s₀ : GestureState) (frames : List (Bool × ℚ)) (i : ℕ) :
    GestureState :=
  stateAfter s₀ (frames.take i)

/-- Whether frame `i` (processed from start state `s₀`) emits a gesture
event. -/
def emitsFromAt (s₀ : GestureState) (frames : List (Bool × ℚ)) (i : ℕ) :
    Bool :=
  (observe (stateFromAt s₀ frames i) (sigAt frames i) (timeAt frames i)).2

/-- State just before frame `i` in a run from program start. -/
def stateAt (frames : List (Bool × ℚ)) (i : ℕ) : GestureState :=
  stateFromAt initGestureState frames i

/-- Whether frame `i` emits in a run from program start. -/
def emitsAt (frames : List (Bool × ℚ)) (i : ℕ) : Bool :=
  emitsFromAt initGestureState frames i

/-- The stability verdict the code computes at frame `i` of a run (on the
window after appending frame `i`'s signal). -/
def stableAtB (frames : List (Bool × ℚ)) (i : ℕ) : Bool :=
  stableOf (pushFrame (stateAt frames i).frame_history (sigAt frames i))

/-- The spec's threshold `ceil(0.7 * W)`. -/
def specThreshold : ℕ := Nat.ceil ((7/10 : ℚ) * (GESTURE_FRAME_WINDOW : ℚ))

/-- The spec's stability verdict at frame `i`: at least `ceil(0.7*W)` of
the last at-most-`W` observed frame signals (up to and including frame
`i`) are true. -/
def specVerdict (frames : List (Bool × ℚ)) (i : ℕ) : Prop :=
  specThreshold ≤
    ((((frames.take (i+1)).map Prod.fst).drop (i + 1 - GESTURE_FRAME_WINDOW)).count true)

/-! ### Voice listener (genlock.py lines 104-112)

On a successful transcript the listener lowercases it
(`r.recognize_google(audio).lower()`), then iterates over
`VOICE_KEY_PHRASES` testing Python substring containment (`phrase in
text`), and on the first match puts one `("voice", text)` event on the
queue and breaks out of the loop. -/

/-- Python's `str.lower()`: lowercase each character. -/
def pyLower (s : String) : String := ⟨s.data.map Char.toLower⟩

/-- Python's `str.strip()` with no argument: remove leading and trailing
whitespace. -/
def pyStrip (s : String) : String :=
  ⟨((s.data.dropWhile Char.isWhitespace).reverse.dropWhile
      Char.isWhitespace).reverse⟩

/-- Python's `pat in text` for strings: contiguous-substring
containment. -/
def strContains (text pat : String) : Bool :=
  decide (pat.toList <:+: text.toList)

/-- The `for phrase in VOICE_KEY_PHRASES: if phrase in text: ... break`
loop: returns the first phrase contained in `text`, if any. -/
def scanLoop : List String → String → Option String
  | [], _ => none
  | p :: ps, text =>
      if strContains text p then some p else scanLoop ps text

/-- Handling of one recognized raw transcript: the list of events
enqueued for it (lines 106-112). -/
def voiceHandle (raw : String) : List (String × String) :=
  match scanLoop VOICE_KEY_PHRASES (pyLower raw) with
  | some _ => [("voice", pyLower raw)]
  | none => []

/-! ### Lock controller (genlock.py lines 40-81)

`lock_workstation()` reads the global `last_lock_time` and the current
wall-clock; inside the debounce window it logs and returns with no other
effect.  Otherwise it updates `last_lock_time`, speaks the countdown,
invokes the platform lock (whose failure is caught and logged), and then
unconditionally calls `sys.exit(0)`.  The platform call is abstracted by
the boolean `lockSucceeds`. -/

structure LockResult where
  /-- Value of the global `last_lock_time` after the call. -/
  last_lock_time : ℚ
  /-- Whether the platform lock executor was invoked (lines 55-74). -/
  invoked : Bool
  /-- `some c` iff the call terminated the process, with exit code `c`. -/
  exitedWith : Option ℕ
  /-- Countdown feedback spoken (lines 50-53). -/
  countdown : List String
  /-- Messages printed (lines 45, 76, 79). -/
  logs : List String
deriving Repr, DecidableEq

/-- Lines 50-53: `for i in range(CONFIRM_COUNTDOWN, 0, -1): speak(...)`,
guarded by `CONFIRM_COUNTDOWN > 0`. -/
def countdownMsgs : List String :=
  if 0 < CONFIRM_COUNTDOWN then
    (List.range CONFIRM_COUNTDOWN).reverse.map
      (fun i => "Locking in " ++ toString (i + 1))
  else []

/-- Result of the debounce-drop path (lines 44-46). -/
def dropResult (last : ℚ) : LockResult :=
  ⟨last, false, none, [], ["Lock suppressed (debounce)."]⟩

/-- `lock_workstation()` at wall-clock time `now`, with the global
`last_lock_time` equal to `last`; `lockSucceeds` abstracts whether the
platform lock call raised. -/
def lock_workstation (last now : ℚ) (lockSucceeds : Bool) : LockResult :=
  if now - last < DEBOUNCE_SECONDS then
    dropResult last
  else
    ⟨now, true, some 0, countdownMsgs,
      (if lockSucceeds then [] else ["Lock failed."]) ++
        ["System locked. Exiting program..."]⟩

/-! ### Singleton guard (genlock_app.py lines 132-140)

At startup the program binds `(127.0.0.1, 54321)` in listen mode; on
`OSError` it prints and calls `sys.exit(0)` before the control thread is
started (line 176-177) and hence before the main loop.  Whether the bind
succeeds is an OS outcome, modelled as the input `bindSucceeds`; a
second instance started while the port is held sees `bindSucceeds =
false`. -/

structure StartupResult where
  exitedWith : Option ℕ
  message : Option String
  controlThreadStarted : Bool
  mainLoopStarted : Bool
deriving Repr, DecidableEq

def singletonStartup (bindSucceeds : Bool) : StartupResult :=
  if bindSucceeds then ⟨none, none, true, true⟩
  else
    ⟨some 0, some "Another GenLock instance is already running. Exiting.",
      false, false⟩

/-! ### Control channel (genlock_app.py lines 152-172)

Per accepted connection the thread reads up to 1024 bytes, decodes,
strips and lowercases (`.strip().lower()`); on `"stop"` it sends
`"stopping"`, closes, and exits the process (the `sys.exit(0)` raises
`SystemExit`, which the surrounding `except SystemExit` turns into
`os._exit(0)`, so the process terminates with code 0); otherwise it
sends `"unknown"` and closes, and the loop continues. -/

structure ControlResult where
  reply : String
  /-- Whether the connection was closed (`conn.close()`, both paths). -/
  connClosed : Bool
  /-- `some c` iff the process terminated, with exit code `c`. -/
  exitedWith : Option ℕ
deriving Repr, DecidableEq

def controlHandle (raw : String) : ControlResult :=
  if pyLower (pyStrip raw) = "stop" then ⟨"stopping", true, some 0⟩
  else ⟨"unknown", true, none⟩

/-! ### Process exit paths

Every way the process terminates, with the exit status the source
produces there:
* lock-and-exit: `sys.exit(0)` at genlock.py line 81;
* already-running refusal: `sys.exit(0)` at genlock_app.py line 140;
* remote stop: `os._exit(0)` at genlock_app.py line 166;
* camera unavailable: `main()` prints and `return`s (genlock.py lines
  155-157), after which the interpreter finishes the script normally,
  i.e. with status 0. -/

inductive ExitPath where
  | lockAndExit
  | alreadyRunning
  | remoteStop
  | cameraUnavailable
deriving Repr, DecidableEq

def exitCode : ExitPath → ℕ
  | .lockAndExit => 0
  | .alreadyRunning => 0
  | .remoteStop => 0
  | .cameraUnavailable => 0

/-! ### Lemmas about the gesture stabilizer -/

theorem stableOf_eq (fh : List Bool) :
    stableOf fh = decide (7 ≤ fh.count true) := by
  unfold stableOf votesOf GESTURE_FRAME_WINDOW
  rw [decide_eq_decide]
  constructor
  · intro h
    have h7 : ((7 : ℕ) : ℚ) ≤ (fh.count true : ℚ) := by push_cast; linarith
    exact_mod_cast h7
  · intro h
    have h7 : ((7 : ℕ) : ℚ) ≤ (fh.count true : ℚ) := by exact_mod_cast h
    push_cast at h7
    linarith

theorem specThreshold_eq : specThreshold = 7 := by
  have : ((7 : ℚ)/10) * (GESTURE_FRAME_WINDOW : ℚ) = 7 := by
    norm_num [GESTURE_FRAME_WINDOW]
  rw [specThreshold, this]
  exact_mod_cast Nat.ceil_natCast 7

theorem length_pushFrame (fh : List Bool) (g : Bool)
    (h : fh.length ≤ GESTURE_FRAME_WINDOW) :
    (pushFrame fh g).length ≤ GESTURE_FRAME_WINDOW := by
  have hl : (fh ++ [g]).length = fh.length + 1 := by simp
  unfold pushFrame
  by_cases hc : GESTURE_FRAME_WINDOW < (fh ++ [g]).length
  · rw [if_pos hc, List.length_drop, hl]
    rw [hl] at hc
    omega
  · rw [if_neg hc, hl]
    rw [hl] at hc
    omega

theorem pushFrame_suffix (fh : List Bool) (g : Bool) :
    pushFrame fh g <:+ fh ++ [g] := by
  unfold pushFrame
  split
  · exact List.drop_suffix 1 _
  · exact List.suffix_refl _

/-- Append-right monotonicity of the suffix relation. -/
theorem isSuffix_append_right {α : Type} {l₁ l₂ : List α} (l₃ : List α)
    (h : l₁ <:+ l₂) : l₁ ++ l₃ <:+ l₂ ++ l₃ := by
  obtain ⟨t, rfl⟩ := h
  exact ⟨t, (List.append_assoc t l₁ l₃).symm⟩

/-- A sufficiently short suffix is a suffix of the last `n` elements. -/
theorem isSuffix_drop_of_length_le {α : Type} {l₁ l₂ : List α} {n : ℕ}
    (h : l₁ <:+ l₂) (hn : l₁.length ≤ n) :
    l₁ <:+ l₂.drop (l₂.length - n) := by
  obtain ⟨t, rfl⟩ := h
  refine ⟨t.drop ((t ++ l₁).length - n), ?_⟩
  rw [List.drop_append_eq_append_drop]
  have hz : (t ++ l₁).length - n - t.length = 0 := by
    simp only [List.length_append]; omega
  rw [hz, List.drop_zero]

/-- Exhaustive description of one `observe` step, one disjunct per
branch of the source's `if`/`elif` chain. -/
theorem observe_cases (s : GestureState) (g : Bool) (t : ℚ) :
    (stableOf (pushFrame s.frame_history g) = true ∧
      s.last_gesture_state = true ∧
      LOCK_HOLD_SECONDS ≤ t - (s.gesture_start_time.getD 0) ∧
      observe s g t = (⟨[], s.gesture_start_time, false⟩, true)) ∨
    (stableOf (pushFrame s.frame_history g) = true ∧
      s.last_gesture_state = true ∧
      ¬ (LOCK_HOLD_SECONDS ≤ t - (s.gesture_start_time.getD 0)) ∧
      observe s g t =
        (⟨pushFrame s.frame_history g, s.gesture_start_time, true⟩, false)) ∨
    (stableOf (pushFrame s.frame_history g) = true ∧
      s.last_gesture_state = false ∧
      observe s g t = (⟨pushFrame s.frame_history g, some t, true⟩, false)) ∨
    (stableOf (pushFrame s.frame_history g) = false ∧
      observe s g t = (⟨pushFrame s.frame_history g, none, false⟩, false)) := by
  unfold observe
  split_ifs with h1 h2 h3 <;> simp_all

theorem observe_fst_suffix (s : GestureState) (g : Bool) (t : ℚ) :
    (observe s g t).1.frame_history <:+ s.frame_history ++ [g] := by
  rcases observe_cases s g t with ⟨_, _, _, h⟩ | ⟨_, _, _, h⟩ | ⟨_, _, h⟩ |
      ⟨_, h⟩ <;> rw [h]
  · exact List.nil_suffix
  all_goals exact pushFrame_suffix _ _

theorem observe_fst_length (s : GestureState) (g : Bool) (t : ℚ)
    (h : s.frame_history.length ≤ GESTURE_FRAME_WINDOW) :
    (observe s g t).1.frame_history.length ≤ GESTURE_FRAME_WINDOW := by
  rcases observe_cases s g t with ⟨_, _, _, he⟩ | ⟨_, _, _, he⟩ | ⟨_, _, he⟩ |
      ⟨_, he⟩ <;> rw [he]
  · simp [GESTURE_FRAME_WINDOW]
  all_goals exact length_pushFrame _ _ h

theorem stateAfter_nil (s : GestureState) : stateAfter s [] = s := rfl

theorem stateAfter_cons (s : GestureState) (f : Bool × ℚ)
    (fs : List (Bool × ℚ)) :
    stateAfter s (f :: fs) = stateAfter (gestureStep s f) fs := rfl

/-- The stability window only ever holds signals the run has observed:
it stays a suffix of `L ++ frames.map Prod.fst` whenever it starts as a
suffix of `L`. -/
theorem stateAfter_suffix :
    ∀ (frames : List (Bool × ℚ)) (s : GestureState) (L : List Bool),
      s.frame_history <:+ L →
      (stateAfter s frames).frame_history <:+ L ++ frames.map Prod.fst := by
  intro frames
  induction frames with
  | nil => intro s L h; simpa using h
  | cons f fs ih =>
    intro s L h
    rw [stateAfter_cons]
    have h1 : (gestureStep s f).frame_history <:+ L ++ [f.1] :=
      (observe_fst_suffix s f.1 f.2).trans (isSuffix_append_right [f.1] h)
    have h2 := ih (gestureStep s f) (L ++ [f.1]) h1
    simpa [List.append_assoc] using h2

theorem stateAfter_length :
    ∀ (frames : List (Bool × ℚ)) (s : GestureState),
      s.frame_history.length ≤ GESTURE_FRAME_WINDOW →
      (stateAfter s frames).frame_history.length ≤ GESTURE_FRAME_WINDOW := by
  intro frames
  induction frames with
  | nil => intro s h; simpa using h
  | cons f fs ih =>
    intro s h
    rw [stateAfter_cons]
    exact ih _ (observe_fst_length s f.1 f.2 h)

theorem stateFromAt_succ (s₀ : GestureState) (frames : List (Bool × ℚ))
    (n : ℕ) (h : n < frames.length) :
    stateFromAt s₀ frames (n + 1) =
      (observe (stateFromAt s₀ frames n) (sigAt frames n)
        (timeAt frames n)).1 := by
  have htake : frames.take (n + 1) = frames.take n ++ [frames[n]] := by
    rw [List.take_succ, List.getElem?_eq_getElem h]
    rfl
  have hgd : frames.getD n (false, 0) = frames[n] := by
    simp [List.getElem?_eq_getElem h]
  unfold stateFromAt stateAfter sigAt timeAt
  rw [htake, List.foldl_append, hgd]
  rfl

/-- While `last_gesture_state` is set, `gesture_start_time` records the
timestamp of a frame `j` at which the code's stability verdict turned
on, and the code's verdict has held at every frame since. -/
theorem hold_invariant (frames : List (Bool × ℚ)) :
    ∀ n, n ≤ frames.length →
      (stateAt frames n).last_gesture_state = true →
      ∃ j, j < n ∧
        (stateAt frames n).gesture_start_time = some (timeAt frames j) ∧
        ∀ k, j ≤ k → k < n → stableAtB frames k = true := by
  intro n
  induction n with
  | zero =>
    intro _ hlast
    simp [stateAt, stateFromAt, stateAfter, initGestureState] at hlast
  | succ m ih =>
    intro hm hlast
    have hmlt : m < frames.length := hm
    have hstep : stateAt frames (m + 1) =
        (observe (stateAt frames m) (sigAt frames m) (timeAt frames m)).1 :=
      stateFromAt_succ _ _ _ hmlt
    rcases observe_cases (stateAt frames m) (sigAt frames m)
        (timeAt frames m) with
      ⟨h1, h2, h3, he⟩ | ⟨h1, h2, h3, he⟩ | ⟨h1, h2, he⟩ | ⟨h1, he⟩
    · rw [hstep, he] at hlast
      simp at hlast
    · obtain ⟨j, hj, hstart, hcont⟩ := ih (le_of_lt hmlt) h2
      refine ⟨j, lt_trans hj (Nat.lt_succ_self m), ?_, ?_⟩
      · rw [hstep, he]
        exact hstart
      · intro k hk1 hk2
        rcases Nat.lt_or_ge k m with hkm | hkm
        · exact hcont k hk1 hkm
        · have hkm' : k = m := by omega
          rw [hkm']
          exact h1
    · refine ⟨m, Nat.lt_succ_self m, ?_, ?_⟩
      · rw [hstep, he]
      · intro k hk1 hk2
        have hkm' : k = m := by omega
        rw [hkm']
        exact h1
    · rw [hstep, he] at hlast
      simp at hlast

/-- The code's verdict at frame `k` of a run implies the spec's verdict
(at least `ceil(0.7*W)` of the last at-most-`W` observed frames true):
the live window is a suffix of the observed signals of length ≤ `W`. -/
theorem stableAtB_specVerdict (frames : List (Bool × ℚ)) (k : ℕ)
    (hk : k < frames.length) (h : stableAtB frames k = true) :
    specVerdict frames k := by
  have h' : stableOf
      (pushFrame (stateAt frames k).frame_history (sigAt frames k)) = true := h
  have hsuf0 : (stateAt frames k).frame_history <:+
      (frames.take k).map Prod.fst := by
    have := stateAfter_suffix (frames.take k) initGestureState []
      (by simp [initGestureState])
    simpa using this
  have htake : frames.take (k + 1) = frames.take k ++ [frames[k]] := by
    rw [List.take_succ, List.getElem?_eq_getElem hk]
    rfl
  have hmap : (frames.take (k + 1)).map Prod.fst =
      ((frames.take k).map Prod.fst) ++ [sigAt frames k] := by
    rw [htake, List.map_append]
    congr 1
    simp [sigAt, List.getElem?_eq_getElem hk]
  have hsuf1 : pushFrame (stateAt frames k).frame_history (sigAt frames k) <:+
      (frames.take (k + 1)).map Prod.fst := by
    rw [hmap]
    exact (pushFrame_suffix _ _).trans (isSuffix_append_right _ hsuf0)
  have hwlen : (pushFrame (stateAt frames k).frame_history
      (sigAt frames k)).length ≤ GESTURE_FRAME_WINDOW := by
    apply length_pushFrame
    exact stateAfter_length _ _ (by simp [initGestureState])
  have hlen : ((frames.take (k + 1)).map Prod.fst).length = k + 1 := by
    simp only [List.length_map, List.length_take]
    omega
  have hsuf2 := isSuffix_drop_of_length_le hsuf1 hwlen
  rw [hlen] at hsuf2
  have hcount : 7 ≤ (pushFrame (stateAt frames k).frame_history
      (sigAt frames k)).count true := by
    rw [stableOf_eq] at h'
    exact of_decide_eq_true h'
  unfold specVerdict
  rw [specThreshold_eq]
  exact le_trans hcount (hsuf2.sublist.count_le true)

/-- From any frame index at which the spec's verdict holds through `i`,
one can move back to a frame at which the verdict turned on while
keeping it continuously true through `i`. -/
theorem specVerdict_min (frames : List (Bool × ℚ)) (i : ℕ) :
    ∀ j0, (∀ k, j0 ≤ k → k ≤ i → specVerdict frames k) →
      ∃ j, j ≤ j0 ∧ (j = 0 ∨ ¬ specVerdict frames (j - 1)) ∧
        ∀ k, j ≤ k → k ≤ i → specVerdict frames k := by
  intro j0
  induction j0 with
  | zero =>
    intro h
    exact ⟨0, le_refl 0, Or.inl rfl, h⟩
  | succ m ih =>
    intro h
    by_cases hm : specVerdict frames m
    · have h' : ∀ k, m ≤ k → k ≤ i → specVerdict frames k := by
        intro k hk1 hk2
        rcases Nat.eq_or_lt_of_le hk1 with he | hl
        · rw [← he]
          exact hm
        · exact h k hl hk2
      obtain ⟨j, hj, hb, hc⟩ := ih h'
      exact ⟨j, le_trans hj (Nat.le_succ m), hb, hc⟩
    · exact ⟨m + 1, le_refl _, Or.inr (by simpa using hm), h⟩

/-! ### A concrete example run: eight consecutive true frames, one
second apart.  The stability verdict first holds at frame 6 (7 of 7
votes) and frame 7 then satisfies the 0.9 s hold, emitting a gesture
event. -/

def exFrames : List (Bool × ℚ) :=
  [(true, 0), (true, 1), (true, 2), (true, 3),
   (true, 4), (true, 5), (true, 6), (true, 7)]

theorem exFrames_state7 :
    stateAt exFrames 7 =
      ⟨[true, true, true, true, true, true, true], some 6, true⟩ := by
  have s0 : stateAt exFrames 0 = ⟨[], none, false⟩ := rfl
  have q1 : stableOf [true] = false := by
    rw [stableOf_eq]; decide
  have q2 : stableOf [true, true] = false := by
    rw [stableOf_eq]; decide
  have q3 : stableOf [true, true, true] = false := by
    rw [stableOf_eq]; decide
  have q4 : stableOf [true, true, true, true] = false := by
    rw [stableOf_eq]; decide
  have q5 : stableOf [true, true, true, true, true] = false := by
    rw [stableOf_eq]; decide
  have q6 : stableOf [true, true, true, true, true, true] = false := by
    rw [stableOf_eq]; decide
  have q7 : stableOf [true, true, true, true, true, true, true] = true := by
    rw [stableOf_eq]; decide
  have s1 : stateAt exFrames 1 = ⟨[true], none, false⟩ := by
    have h : stateAt exFrames 1 = (observe (stateAt exFrames 0)
        (sigAt exFrames 0) (timeAt exFrames 0)).1 :=
      stateFromAt_succ initGestureState exFrames 0 (by decide)
    rw [h, s0, show sigAt exFrames 0 = true from rfl]
    simp [observe, q1, pushFrame, GESTURE_FRAME_WINDOW]
  have s2 : stateAt exFrames 2 = ⟨[true, true], none, false⟩ := by
    have h : stateAt exFrames 2 = (observe (stateAt exFrames 1)
        (sigAt exFrames 1) (timeAt exFrames 1)).1 :=
      stateFromAt_succ initGestureState exFrames 1 (by decide)
    rw [h, s1, show sigAt exFrames 1 = true from rfl]
    simp [observe, q2, pushFrame, GESTURE_FRAME_WINDOW]
  have s3 : stateAt exFrames 3 = ⟨[true, true, true], none, false⟩ := by
    have h : stateAt exFrames 3 = (observe (stateAt exFrames 2)
        (sigAt exFrames 2) (timeAt exFrames 2)).1 :=
      stateFromAt_succ initGestureState exFrames 2 (by decide)
    rw [h, s2, show sigAt exFrames 2 = true from rfl]
    simp [observe, q3, pushFrame, GESTURE_FRAME_WINDOW]
  have s4 : stateAt exFrames 4 = ⟨[true, true, true, true], none, false⟩ := by
    have h : stateAt exFrames 4 = (observe (stateAt exFrames 3)
        (sigAt exFrames 3) (timeAt exFrames 3)).1 :=
      stateFromAt_succ initGestureState exFrames 3 (by decide)
    rw [h, s3, show sigAt exFrames 3 = true from rfl]
    simp [observe, q4, pushFrame, GESTURE_FRAME_WINDOW]
  have s5 : stateAt exFrames 5 =
      ⟨[true, true, true, true, true], none, false⟩ := by
    have h : stateAt exFrames 5 = (observe (stateAt exFrames 4)
        (sigAt exFrames 4) (timeAt exFrames 4)).1 :=
      stateFromAt_succ initGestureState exFrames 4 (by decide)
    rw [h, s4, show sigAt exFrames 4 = true from rfl]
    simp [observe, q5, pushFrame, GESTURE_FRAME_WINDOW]
  have s6 : stateAt exFrames 6 =
      ⟨[true, true, true, true, true, true], none, false⟩ := by
    have h : stateAt exFrames 6 = (observe (stateAt exFrames 5)
        (sigAt exFrames 5) (timeAt exFrames 5)).1 :=
      stateFromAt_succ initGestureState exFrames 5 (by decide)
    rw [h, s5, show sigAt exFrames 5 = true from rfl]
    simp [observe, q6, pushFrame, GESTURE_FRAME_WINDOW]
  have h : stateAt exFrames 7 = (observe (stateAt exFrames 6)
      (sigAt exFrames 6) (timeAt exFrames 6)).1 :=
    stateFromAt_succ initGestureState exFrames 6 (by decide)
  rw [h, s6, show sigAt exFrames 6 = true from rfl,
    show timeAt exFrames 6 = 6 from rfl]
  simp [observe, q7, pushFrame, GESTURE_FRAME_WINDOW]

/-- Frame 7 of the example run emits a gesture event. -/
theorem exFrames_emits7 : emitsAt exFrames 7 = true := by
  have hq : stableOf
      [true, true, true, true, true, true, true, true] = true := by
    rw [stableOf_eq]; decide
  have hhold : LOCK_HOLD_SECONDS ≤ timeAt exFrames 7 - 6 := by
    rw [show timeAt exFrames 7 = 7 from rfl]
    norm_num [LOCK_HOLD_SECONDS]
  have hp : pushFrame [true, true, true, true, true, true, true] true =
      [true, true, true, true, true, true, true, true] := by decide
  have h : emitsAt exFrames 7 = (observe (stateAt exFrames 7)
      (sigAt exFrames 7) (timeAt exFrames 7)).2 := rfl
  rw [h, exFrames_state7, show sigAt exFrames 7 = true from rfl]
  simp [observe, hp, hq, hhold]

/-! ### Claim theorems -/

/-- **C1**: for every sequence of boolean frame signals (with
nondecreasing timestamps), a GESTURE event is emitted on frame `i` only
if the stability verdict — at least `ceil(0.7*W)` of the last at-most-`W`
observed frames true — was true continuously from some frame `j` at
which it became true up to frame `i`, and held for at least
`LOCK_HOLD_SECONDS`. -/
theorem gesture_emit_requires_hold (frames : List (Bool × ℚ)) (i : ℕ)
    (hi : i < frames.length)
    (hmono : ∀ b, b < frames.length → ∀ a, a ≤ b →
      timeAt frames a ≤ timeAt frames b)
    (hemit : emitsAt frames i = true) :
    ∃ j, j ≤ i ∧ (j = 0 ∨ ¬ specVerdict frames (j - 1)) ∧
      (∀ k, j ≤ k → k ≤ i → specVerdict frames k) ∧
      LOCK_HOLD_SECONDS ≤ timeAt frames i - timeAt frames j := by
  have hsnd : (observe (stateAt frames i) (sigAt frames i)
      (timeAt frames i)).2 = true := hemit
  rcases observe_cases (stateAt frames i) (sigAt frames i)
      (timeAt frames i) with
    ⟨h1, h2, h3, he⟩ | ⟨h1, h2, h3, he⟩ | ⟨h1, h2, he⟩ | ⟨h1, he⟩
  · obtain ⟨j0, hj0, hstart, hcont⟩ :=
      hold_invariant frames i (le_of_lt hi) h2
    have h3' : LOCK_HOLD_SECONDS ≤ timeAt frames i - timeAt frames j0 := by
      rw [hstart] at h3
      simpa using h3
    have hcont' : ∀ k, j0 ≤ k → k ≤ i → specVerdict frames k := by
      intro k hk1 hk2
      apply stableAtB_specVerdict frames k (lt_of_le_of_lt hk2 hi)
      rcases Nat.lt_or_ge k i with hki | hki
      · exact hcont k hk1 hki
      · have hkeq : k = i := by omega
        rw [hkeq]
        exact h1
    obtain ⟨j, hj, hb, hc⟩ := specVerdict_min frames i j0 hcont'
    refine ⟨j, le_trans hj (le_of_lt hj0), hb, hc, ?_⟩
    have hle : timeAt frames j ≤ timeAt frames j0 :=
      hmono j0 (lt_trans hj0 hi) j hj
    linarith
  · rw [he] at hsnd; simp at hsnd
  · rw [he] at hsnd; simp at hsnd
  · rw [he] at hsnd; simp at hsnd

/-- Witness for C1: the example run emits at frame 7 and the hold/
continuity conclusion holds for it. -/
theorem gesture_emit_requires_hold_witness :
    ∃ j, j ≤ 7 ∧ (j = 0 ∨ ¬ specVerdict exFrames (j - 1)) ∧
      (∀ k, j ≤ k → k ≤ 7 → specVerdict exFrames k) ∧
      LOCK_HOLD_SECONDS ≤ timeAt exFrames 7 - timeAt exFrames j :=
  gesture_emit_requires_hold exFrames 7 (by decide) (by decide) exFrames_emits7

/-- **C2**: an emitting `observe` step leaves the stability window empty
and `last_gesture_state = False`; and in a run started with an empty
window (as after an emission), a gesture event at frame `i` requires at
least `ceil(0.7*W)` true signals among the fresh frames `0..i`. -/
theorem emit_clears_window_and_resets :
    (∀ (s : GestureState) (g : Bool) (t : ℚ), (observe s g t).2 = true →
      (observe s g t).1.frame_history = [] ∧
      (observe s g t).1.last_gesture_state = false) ∧
    (∀ (st : Option ℚ) (b : Bool) (frames : List (Bool × ℚ)) (i : ℕ),
      emitsFromAt ⟨[], st, b⟩ frames i = true →
      specThreshold ≤ ((frames.take (i + 1)).map Prod.fst).count true) := by
  constructor
  · intro s g t hemit
    rcases observe_cases s g t with
      ⟨_, _, _, he⟩ | ⟨_, _, _, he⟩ | ⟨_, _, he⟩ | ⟨_, he⟩ <;>
      rw [he] at hemit ⊢ <;> simp_all
  · intro st b frames i hemit
    have hsnd : (observe (stateFromAt ⟨[], st, b⟩ frames i) (sigAt frames i)
        (timeAt frames i)).2 = true := hemit
    rcases observe_cases (stateFromAt ⟨[], st, b⟩ frames i) (sigAt frames i)
        (timeAt frames i) with
      ⟨h1, _, _, _⟩ | ⟨_, _, _, he⟩ | ⟨_, _, he⟩ | ⟨_, he⟩
    · have hsuf0 : (stateFromAt ⟨[], st, b⟩ frames i).frame_history <:+
          (frames.take i).map Prod.fst := by
        have := stateAfter_suffix (frames.take i) ⟨[], st, b⟩ []
          (by simp)
        simpa using this
      have hsuf1 : pushFrame (stateFromAt ⟨[], st, b⟩ frames i).frame_history
          (sigAt frames i) <:+
          ((frames.take i).map Prod.fst) ++ [sigAt frames i] :=
        (pushFrame_suffix _ _).trans (isSuffix_append_right _ hsuf0)
      have hcount : 7 ≤ (pushFrame
          (stateFromAt ⟨[], st, b⟩ frames i).frame_history
          (sigAt frames i)).count true := by
        rw [stableOf_eq] at h1
        exact of_decide_eq_true h1
      have hmono := hsuf1.sublist.count_le true
      have hle : ((frames.take i).map Prod.fst ++ [sigAt frames i]).count true ≤
          ((frames.take (i + 1)).map Prod.fst).count true := by
        rcases Nat.lt_or_ge i frames.length with hilen | hilen
        · have htake : frames.take (i + 1) = frames.take i ++ [frames[i]] := by
            rw [List.take_succ, List.getElem?_eq_getElem hilen]
            rfl
          have : (frames.take (i + 1)).map Prod.fst =
              ((frames.take i).map Prod.fst) ++ [sigAt frames i] := by
            rw [htake, List.map_append]
            congr 1
            simp [sigAt, List.getElem?_eq_getElem hilen]
          rw [this]
        · -- `i` out of range: the appended signal is the default `false`
          -- and contributes nothing to the `true` count.
          have htake : frames.take (i + 1) = frames.take i := by
            rw [List.take_of_length_le hilen,
              List.take_of_length_le (le_trans hilen (Nat.le_succ i))]
          have hsig : sigAt frames i = false := by
            unfold sigAt
            rw [List.getD_eq_default]
            exact hilen
          rw [htake, hsig]
          simp
      rw [specThreshold_eq]
      exact le_trans hcount (le_trans hmono hle)
    · rw [he] at hsnd; simp at hsnd
    · rw [he] at hsnd; simp at hsnd
    · rw [he] at hsnd; simp at hsnd

/-- Witness for C2: a concrete emitting step has empty window and IDLE
state afterwards, and the example run requires 7 fresh true frames. -/
theorem emit_clears_window_and_resets_witness :
    ((observe ⟨[true, true, true, true, true, true], some 0, true⟩ true 1).1.frame_history
        = [] ∧
      (observe ⟨[true, true, true, true, true, true], some 0, true⟩ true 1).1.last_gesture_state
        = false) ∧
    specThreshold ≤ ((exFrames.take 8).map Prod.fst).count true := by
  constructor
  · apply emit_clears_window_and_resets.1
    have hq : stableOf [true, true, true, true, true, true, true] = true := by
      rw [stableOf_eq]; decide
    have hp : pushFrame [true, true, true, true, true, true] true =
        [true, true, true, true, true, true, true] := by decide
    have hhold : LOCK_HOLD_SECONDS ≤ (1 : ℚ) := by
      norm_num [LOCK_HOLD_SECONDS]
    simp [observe, hp, hq, hhold]
  · exact emit_clears_window_and_resets.2 none false exFrames 7 exFrames_emits7

/-- The spec's per-window stability verdict, worded as in the spec:
`votes >= ceil(0.7 * W)`. -/
def specStable (fh : List Bool) : Prop := specThreshold ≤ votesOf fh

/-- **C6**: with `W = 10` the code's comparison `votes >= W * 0.7`
decides exactly the windows with at least `ceil(0.7*W) = 7` true
votes. -/
theorem stable_comparison_matches_ceil :
    specThreshold = 7 ∧
    ∀ fh : List Bool, stableOf fh = true ↔ specStable fh := by
  refine ⟨specThreshold_eq, fun fh => ?_⟩
  rw [stableOf_eq, specStable, specThreshold_eq, votesOf]
  exact decide_eq_true_iff

/-- **C9**: at every point of every run the stability window holds at
most `GESTURE_FRAME_WINDOW` entries; each observation only appends the
new signal and removes oldest entries (the post-step window is a suffix
of the pre-step window plus the new signal); and when the appended
window exceeds `W`, exactly the oldest entry is evicted. -/
theorem window_bounded_and_fifo :
    (∀ (frames : List (Bool × ℚ)) (n : ℕ),
      (stateAt frames n).frame_history.length ≤ GESTURE_FRAME_WINDOW) ∧
    (∀ (s : GestureState) (g : Bool) (t : ℚ),
      (observe s g t).1.frame_history <:+ s.frame_history ++ [g]) ∧
    (∀ (fh : List Bool) (g : Bool),
      GESTURE_FRAME_WINDOW < (fh ++ [g]).length →
      pushFrame fh g = (fh ++ [g]).drop 1) := by
  refine ⟨fun frames n => ?_, observe_fst_suffix, fun fh g h => ?_⟩
  · exact stateAfter_length _ _ (by simp [initGestureState])
  · rw [pushFrame, if_pos h]

/-- Witness for C9: the eviction equation at a full window. -/
theorem window_bounded_and_fifo_witness :
    pushFrame [true, false, true, false, true, false, true, false, true, false]
      true =
    ([true, false, true, false, true, false, true, false, true, false] ++
      [true]).drop 1 :=
  window_bounded_and_fifo.2.2
    [true, false, true, false, true, false, true, false, true, false] true
    (by decide)

/-! ### Lock-controller lemmas -/

theorem lock_workstation_drop (last now : ℚ) (ok : Bool)
    (h : now - last < DEBOUNCE_SECONDS) :
    lock_workstation last now ok = dropResult last := by
  unfold lock_workstation
  rw [if_pos h]

theorem lock_workstation_accept (last now : ℚ) (ok : Bool)
    (h : DEBOUNCE_SECONDS ≤ now - last) :
    lock_workstation last now ok =
      ⟨now, true, some 0, countdownMsgs,
        (if ok then [] else ["Lock failed."]) ++
          ["System locked. Exiting program..."]⟩ := by
  unfold lock_workstation
  rw [if_neg (not_lt.mpr h)]

/-- **C3**: when an accepted lock at `t1` is followed by an event at
`t2` with `t2 - t1 < DEBOUNCE_SECONDS`, only the first invokes the lock
executor; the second is dropped with only the debounce log line.  And in
general every handled event is either invoked or debounce-dropped —
there is no other discard point in the controller. -/
theorem debounce_drops_second_event (last t1 t2 : ℚ) (ok1 ok2 : Bool)
    (h1 : DEBOUNCE_SECONDS ≤ t1 - last) (h2 : t2 - t1 < DEBOUNCE_SECONDS) :
    (lock_workstation last t1 ok1).invoked = true ∧
    lock_workstation (lock_workstation last t1 ok1).last_lock_time t2 ok2 =
      dropResult t1 ∧
    (∀ (s now : ℚ) (ok : Bool), (lock_workstation s now ok).invoked = true ∨
      (now - s < DEBOUNCE_SECONDS ∧
        lock_workstation s now ok = dropResult s)) := by
  refine ⟨?_, ?_, fun s now ok => ?_⟩
  · rw [lock_workstation_accept last t1 ok1 h1]
  · rw [lock_workstation_accept last t1 ok1 h1]
    exact lock_workstation_drop t1 t2 ok2 h2
  · rcases lt_or_ge (now - s) DEBOUNCE_SECONDS with hc | hc
    · exact Or.inr ⟨hc, lock_workstation_drop s now ok hc⟩
    · rw [lock_workstation_accept s now ok hc]
      exact Or.inl rfl

/-- Witness for C3: events at times 5 and 6 (`< 3` s apart), from an
initial `last_lock_time` of 0. -/
theorem debounce_drops_second_event_witness :
    (lock_workstation 0 5 true).invoked = true ∧
    lock_workstation (lock_workstation 0 5 true).last_lock_time 6 true =
      dropResult 5 ∧
    (∀ (s now : ℚ) (ok : Bool), (lock_workstation s now ok).invoked = true ∨
      (now - s < DEBOUNCE_SECONDS ∧
        lock_workstation s now ok = dropResult s)) :=
  debounce_drops_second_event 0 5 6 true true
    (by norm_num [DEBOUNCE_SECONDS]) (by norm_num [DEBOUNCE_SECONDS])

/-- **C10**: inside the debounce window `lock_workstation` returns
having changed nothing: `last_lock_time` keeps its old value, no
countdown feedback is spoken, the executor is not invoked, the process
does not exit, and the only output is the debounce log line. -/
theorem debounce_drop_leaves_state_unchanged (s now : ℚ) (ok : Bool)
    (h : now - s < DEBOUNCE_SECONDS) :
    lock_workstation s now ok =
      ⟨s, false, none, [], ["Lock suppressed (debounce)."]⟩ :=
  lock_workstation_drop s now ok h

/-- Witness for C10: a drop at time 1 after a lock stamped at time 0. -/
theorem debounce_drop_leaves_state_unchanged_witness :
    lock_workstation 0 1 true =
      ⟨0, false, none, [], ["Lock suppressed (debounce)."]⟩ :=
  debounce_drop_leaves_state_unchanged 0 1 true
    (by norm_num [DEBOUNCE_SECONDS])

/-- **C4**: exit codes — an accepted lock terminates the process with
code 0 whether or not the platform lock call succeeded; the singleton
refusal exits with code 0; a remote stop exits with code 0; and no exit
path other than (at most) the camera-unavailable one can produce a
non-zero code. -/
theorem exit_codes_zero :
    (∀ (s now : ℚ) (ok : Bool), DEBOUNCE_SECONDS ≤ now - s →
      (lock_workstation s now ok).exitedWith = some 0) ∧
    (singletonStartup false).exitedWith = some 0 ∧
    (controlHandle "stop").exitedWith = some 0 ∧
    (∀ p : ExitPath, p ≠ ExitPath.cameraUnavailable → exitCode p = 0) := by
  refine ⟨fun s now ok h => ?_, rfl, by decide, fun p hp => ?_⟩
  · rw [lock_workstation_accept s now ok h]
  · cases p <;> rfl

/-- Witness for C4: a lock accepted at time 5 whose platform call fails
still exits with code 0, and the lock-and-exit path's code is 0. -/
theorem exit_codes_zero_witness :
    (lock_workstation 0 5 false).exitedWith = some 0 ∧
    exitCode ExitPath.lockAndExit = 0 :=
  ⟨exit_codes_zero.1 0 5 false (by norm_num [DEBOUNCE_SECONDS]),
    exit_codes_zero.2.2.2 ExitPath.lockAndExit (by decide)⟩

/-- **C5**: the voice listener enqueues either nothing or exactly one
`("voice", transcript)` event whose payload is the full lowercased
transcript; phrases are tested in list order with the first match
winning; and the transcript `"please lock my laptop now"` yields exactly
one event carrying the full transcript. -/
theorem voice_match_full_transcript :
    (∀ raw : String, voiceHandle raw = [] ∨
      voiceHandle raw = [("voice", pyLower raw)]) ∧
    (∀ (ps : List String) (t : String),
      scanLoop ps t = ps.find? (fun p => strContains t p)) ∧
    voiceHandle "please lock my laptop now" =
      [("voice", "please lock my laptop now")] := by
  refine ⟨fun raw => ?_, fun ps t => ?_, ?_⟩
  · unfold voiceHandle
    cases scanLoop VOICE_KEY_PHRASES (pyLower raw) <;> simp
  · induction ps with
    | nil => rfl
    | cons p ps ih =>
      by_cases h : strContains t p = true
      · simp only [scanLoop]
        rw [if_pos h, List.find?_cons_of_pos _ h]
      · simp only [scanLoop]
        rw [if_neg h, List.find?_cons_of_neg _ (by simpa using h), ih]
  · decide

/-- **C7**: when the singleton bind fails (as it does for a second
instance while the port is held), the process prints the
already-running message and exits with code 0 with neither the control
thread nor the main loop started. -/
theorem singleton_second_instance_exits_cleanly :
    singletonStartup false =
      ⟨some 0, some "Another GenLock instance is already running. Exiting.",
        false, false⟩ := rfl

/-- **C8**: a control-channel command whose stripped, lowercased text is
`"stop"` gets the reply `"stopping"`, the connection closed, and process
exit with code 0; any other command gets `"unknown"`, the connection
closed, and the process keeps running. -/
theorem control_stop_semantics (raw : String) :
    (pyLower (pyStrip raw) = "stop" →
      controlHandle raw = ⟨"stopping", true, some 0⟩) ∧
    (pyLower (pyStrip raw) ≠ "stop" →
      controlHandle raw = ⟨"unknown", true, none⟩) := by
  constructor
  · intro h
    unfold controlHandle
    rw [if_pos h]
  · intro h
    unfold controlHandle
    rw [if_neg h]

/-- Witness for C8: `"  Stop "` stops the process, `"lock"` does not. -/
theorem control_stop_semantics_witness :
    controlHandle "  Stop " = ⟨"stopping", true, some 0⟩ ∧
    controlHandle "lock" = ⟨"unknown", true, none⟩ :=
  ⟨(control_stop_semantics "  Stop ").1 (by decide),
    (control_stop_semantics "lock").2 (by decide)⟩

end GenLock
